import Mathlib

/-!
Shallow embedding of the Lichess Country Counter (`src/lcc.py`, with the
`src/main.py` variant of the flag resolver embedded alongside).

Modelling conventions:
* Network I/O is made explicit: `requests.get` returns a `Response` value and
  never raises `requests.HTTPError` (in the `requests` library that exception
  is raised only by `Response.raise_for_status`, which in turn raises exactly
  for statuses 400-599).  The game stream is the list of lines the server
  actually delivered, together with a flag recording whether the line
  iterator then raised a connection-level error (`ChunkedEncodingError` or
  `ConnectionError`, the exceptions `requests` raises when a server error
  interrupts a streamed body mid-way; these are not `HTTPError`s).
* The per-opponent flag lookup performed by `process_game`
  (`extract_player_flag(opponent_name)`) is abstracted as an injected function
  `flagOf : String → String` giving the successful result of each lookup.
* Python floats are modelled as exact rationals (`ℚ`), Python `int` as
  `Int`/`Nat`, `dict`/`Counter` as insertion-ordered association lists, and
  raised exceptions as `Except PyErr`.
-/

namespace LCC

/-- Python exceptions that the modelled code can raise or catch.
`httpError` is `requests.HTTPError`, raised only by
`Response.raise_for_status`; `connectionError` stands for the
connection-level exceptions (`ChunkedEncodingError`, `ConnectionError`) that
the `requests` library raises when a streamed body is interrupted mid-way —
these are not subclasses of `HTTPError`. -/
inductive PyErr where
  | keyError : PyErr
  | attributeError : PyErr
  | httpError : Nat → PyErr
  | jsonDecodeError : PyErr
  | zeroDivisionError : PyErr
  | connectionError : PyErr
deriving DecidableEq, Repr

/-- The `user` object inside a per-colour player entry (a name field). -/
structure User where
  name : String
deriving DecidableEq, Repr

/-- A per-colour entry of the players dictionary of a game: a user object
and a rating. -/
structure Player where
  user : User
  rating : Int
deriving DecidableEq, Repr

/-- A parsed game JSON record, with the fields the source reads.  `winner` is
`none` when the JSON lacks the `winner` key (a draw); otherwise it holds the
raw string value of that key (normally `"white"` or `"black"`). -/
structure Game where
  id : String
  perf : String
  status : String
  white : Player
  black : Player
  winner : Option String
deriving DecidableEq, Repr

/-- Dictionary lookup of player colour `c` in a game; `none` models Python's
`KeyError` for a key other than `"white"`/`"black"`. -/
def Game.player (g : Game) (c : String) : Option Player :=
  if c = "white" then some g.white else if c = "black" then some g.black else none

/-- The flat dictionary produced by `process_game` (lcc.py:171-182). -/
structure GameRecord where
  id : String
  perf : String
  opponent : String
  opponent_rating : Int
  opponent_flag : String
  winner : String
  status : String
  color : String
  opponent_color : String
deriving DecidableEq, Repr

/-- Model of `process_player_colors` (lcc.py:206-216, main.py:133-143): the player is
`"white"` if their name matches the white player field, else `"black"`;
the opponent colour is the opposite. -/
def process_player_colors (g : Game) (username : String) : String × String :=
  if g.white.user.name = username then ("white", "black") else ("black", "white")

/-- Model of `process_game` (lcc.py:157-182, main.py:83-108).  The
`try ... except KeyError` around the winner lookup is modelled by the
`Option` matches: a missing `winner` key, or a winner value that is not a
players key, yields `"Unknown"`.  The opponent lookup
of the opponent colour sits outside that `try`, so its failure
is an uncaught `KeyError`. -/
def process_game (flagOf : String → String) (username : String) (g : Game) :
    Except PyErr GameRecord :=
  let pc := process_player_colors g username
  match g.player pc.2 with
  | none => .error .keyError
  | some opp =>
    let winner_name : String :=
      match g.winner with
      | none => "Unknown"
      | some w =>
        match g.player w with
        | none => "Unknown"
        | some p => p.user.name
    .ok { id := g.id, perf := g.perf, opponent := opp.user.name,
          opponent_rating := opp.rating, opponent_flag := flagOf opp.user.name,
          winner := winner_name, status := g.status,
          color := pc.1, opponent_color := pc.2 }

/-- State of `SimpleTimeEstimator` (lcc.py:51-57); the wall-clock fields
(`seconds_estimate`, `start_time`) play no role in any claim and are omitted. -/
structure SimpleTimeEstimator where
  current_games_analysed : Nat
  games_to_analyse : Nat
  current_update_benchmark : ℚ
  benchmark_increment : ℚ
deriving DecidableEq, Repr

/-- Model of `SimpleTimeEstimator.update` (lcc.py:81-86).  The assignment of
`current_games_analysed` (lcc.py:82) happens first; the division at lcc.py:83
then raises `ZeroDivisionError` when `games_to_analyse` is zero.  On success
the returned `Option Nat` is the progress report printed by the call (`none`
when nothing is printed); the printed report carries the percentage and the
absolute count, modelled here by the count.  Note the benchmark is advanced
by a single increment per call, and it is advanced even in quiet mode (the
`print` alone is guarded). -/
def SimpleTimeEstimator.update (e : SimpleTimeEstimator) (games_analysed : Nat)
    (is_quiet : Bool) : Except PyErr (SimpleTimeEstimator × Option Nat) :=
  let e1 : SimpleTimeEstimator := { e with current_games_analysed := games_analysed }
  if e1.games_to_analyse = 0 then .error .zeroDivisionError
  else if (games_analysed : ℚ) / (e1.games_to_analyse : ℚ) ≥ e1.current_update_benchmark then
    .ok ({ e1 with current_update_benchmark :=
            e1.current_update_benchmark + e1.benchmark_increment },
         if is_quiet then none else some games_analysed)
  else
    .ok (e1, none)

/-- Estimator state as `__init__` leaves it (lcc.py:52-57): zero games
analysed, benchmark `0.05`, increment `0.05`. -/
def mkEstimator (games_to_analyse : Nat) : SimpleTimeEstimator :=
  { current_games_analysed := 0, games_to_analyse := games_to_analyse,
    current_update_benchmark := 1/20, benchmark_increment := 1/20 }

/-- Counter update `if flag not in results: results[flag] = 1 else: results[flag] += 1`
(lcc.py:140-143) on an insertion-ordered counter: a new key is appended at
the end, an existing key is incremented in place. -/
def incrCount (l : List (String × Nat)) (k : String) : List (String × Nat) :=
  match l with
  | [] => [(k, 1)]
  | (a, v) :: t => if a = k then (a, v + 1) :: t else (a, v) :: incrCount t k

/-- Total number of games recorded in a frequency counter. -/
def countsSum (l : List (String × Nat)) : Nat :=
  (l.map (fun p => p.2)).sum

/-- Loop state of `process_games` (lcc.py:131-146): the counter of flags, the
running mean, the 1-based `enumerate` counter over *lines* (blank lines
included), the retained records (`return_games`), the estimator, and the
progress reports emitted so far. -/
structure StreamState where
  results : List (String × Nat)
  avg : ℚ
  linesSeen : Nat
  games : List GameRecord
  est : SimpleTimeEstimator
  reports : List Nat
deriving Repr

/-- Loop state at entry of the `for` loop (lcc.py:131-133). -/
def initStream (est : SimpleTimeEstimator) : StreamState :=
  { results := [], avg := 0, linesSeen := 0, games := [], est := est, reports := [] }

/-- One iteration of the `for` loop of `process_games` (lcc.py:134-146).
A line is `none` when `raw_game_data` is empty (the body is skipped), and
`some g` when it parses to the game `g`.  `estimator.update` runs for every
line, outside the emptiness test, after the aggregate updates of the body.
A raised exception carries the loop state at the moment it was raised (the
local variables the `except` handler would read): aggregates already updated
when the body raised after updating them, and the estimator count already
assigned (lcc.py:82) when the division at lcc.py:83 raised. -/
def streamStep (flagOf : String → String) (username : String)
    (is_quiet return_games : Bool) (st : StreamState) (line : Option Game) :
    Except (PyErr × StreamState) StreamState :=
  let c := st.linesSeen + 1
  match line with
  | none =>
    match st.est.update c is_quiet with
    | .error e =>
      .error (e, { st with linesSeen := c, est := { st.est with current_games_analysed := c } })
    | .ok eu =>
      .ok { st with linesSeen := c, est := eu.1, reports := st.reports ++ eu.2.toList }
  | some g =>
    match process_game flagOf username g with
    | .error e => .error (e, st)
    | .ok gd =>
      match st.est.update c is_quiet with
      | .error e =>
        .error (e, { results := incrCount st.results gd.opponent_flag,
                     avg := st.avg + ((gd.opponent_rating : ℚ) - st.avg) / (c : ℚ),
                     linesSeen := c,
                     games := if return_games then st.games ++ [gd] else st.games,
                     est := { st.est with current_games_analysed := c },
                     reports := st.reports })
      | .ok eu =>
        .ok { results := incrCount st.results gd.opponent_flag,
              avg := st.avg + ((gd.opponent_rating : ℚ) - st.avg) / (c : ℚ),
              linesSeen := c,
              games := if return_games then st.games ++ [gd] else st.games,
              est := eu.1,
              reports := st.reports ++ eu.2.toList }

/-- The `for` loop of `process_games` over the delivered lines; an exception
raised by an iteration aborts the loop, carrying the loop state for the
enclosing `try`. -/
def runStream (flagOf : String → String) (username : String)
    (is_quiet return_games : Bool) :
    StreamState → List (Option Game) → Except (PyErr × StreamState) StreamState
  | st, [] => .ok st
  | st, line :: rest =>
    match streamStep flagOf username is_quiet return_games st line with
    | .error es => .error es
    | .ok st2 => runStream flagOf username is_quiet return_games st2 rest

/-- What a call to `process_games` produces: the retained records (present
exactly when `return_games` was set and the stream did not fail), the counter,
the mean, the count in the `"Analysed K games before receiving Error"` message
of the `except` branch (lcc.py:153, `none` when quiet or no failure), and the
progress reports. -/
structure ProcOutput where
  games : Option (List GameRecord)
  results : List (String × Nat)
  avg : ℚ
  failNote : Option Nat
  reports : List Nat
deriving Repr

/-- Model of `process_games` (lcc.py:117-155).  `lines` is the sequence of
lines the stream delivered; `midStreamFails` records that the line iterator
then raised a connection-level error (`ChunkedEncodingError` or
`ConnectionError`) — the exceptions `requests` actually raises when a server
error interrupts the stream.  A request rejected with a non-success status
raises nothing at all here (`raise_for_status` is never called in the `try`):
its error body is iterated as lines instead, which this model does not
represent.  The `except requests.HTTPError` clause (lcc.py:151-155) is
translated faithfully — it catches exactly `httpError` values and returns the
partial aggregate — but no statement inside the `try` can raise `HTTPError`,
so that handler is dead code and every failure propagates to the caller. -/
def process_games (flagOf : String → String) (username : String)
    (est : SimpleTimeEstimator) (lines : List (Option Game))
    (midStreamFails : Bool) (return_games is_quiet : Bool) :
    Except PyErr ProcOutput :=
  let attempt : Except (PyErr × StreamState) StreamState :=
    match runStream flagOf username is_quiet return_games (initStream est) lines with
    | .error es => .error es
    | .ok st => if midStreamFails then .error (.connectionError, st) else .ok st
  match attempt with
  | .ok st =>
    .ok { games := if return_games then some st.games else none,
          results := st.results, avg := st.avg, failNote := none,
          reports := st.reports }
  | .error (e, st) =>
    match e with
    | .httpError _ =>
      .ok { games := none, results := st.results, avg := st.avg,
            failNote := if is_quiet then none else some st.est.current_games_analysed,
            reports := st.reports }
    | _ => .error e

/-- Rating of the requested user's opponent in a game, as `process_game`
extracts it: the black rating when the user is white, the white rating
otherwise. -/
def opponentRating (username : String) (g : Game) : Int :=
  if g.white.user.name = username then g.black.rating else g.white.rating

/-- Sum, over a list of games, of the opponent ratings (as rationals). -/
def ratingsSum (username : String) (gs : List Game) : ℚ :=
  (gs.map (fun g => (opponentRating username g : ℚ))).sum

/-- Stable insertion, by descending count, of one entry: the entry goes in
front of the first existing entry whose count does not exceed it.  Entries
with an equal count therefore keep their original relative order. -/
def insertDesc (a : String × Nat) : List (String × Nat) → List (String × Nat)
  | [] => [a]
  | b :: l => if b.2 ≤ a.2 then a :: b :: l else b :: insertDesc a l

/-- Stable sort by descending count: the semantics of Python's
`sorted(items, key=count, reverse=True)`. -/
def sortDesc : List (String × Nat) → List (String × Nat)
  | [] => []
  | b :: l => insertDesc b (sortDesc l)

/-- Model of `Counter.most_common(n)`: the first `n` entries of the stable descending
sort, returned as a *list* of pairs.  A negative `n` yields the empty list
(`Int.toNat`), as `heapq.nlargest` does. -/
def most_common (l : List (String × Nat)) (n : Int) : List (String × Nat) :=
  (sortDesc l).take n.toNat

/-- Runtime type of the Python value flowing through `process_results`: the
`Counter` argument, the list produced by `most_common`, or the dict produced
by the comprehension.  Only the first and last have an `.items()` method. -/
inductive PyObj where
  | counter : List (String × Nat) → PyObj
  | pairList : List (String × Nat) → PyObj
  | dict : List (String × Nat) → PyObj
deriving DecidableEq, Repr

/-- Python truthiness of the `-n` argument (`int` or `None`): `if n:`. -/
def truthy : Option Int → Bool
  | none => false
  | some k => k != 0

/-- Model of `process_results` (lcc.py:218-223).  `if n:` rebinds `results` to the
*list* `results.most_common(n)`; the `hide_unknown` comprehension then calls
`results.items()`, which raises `AttributeError` when `results` is that list
rather than a mapping. -/
def process_results (results : List (String × Nat)) (n : Option Int)
    (hide_unknown : Bool) : Except PyErr PyObj :=
  let r : PyObj :=
    if truthy n then .pairList (most_common results (n.getD 0)) else .counter results
  if hide_unknown then
    match r with
    | .counter l => .ok (.dict (l.filter (fun p => p.1 != "Unknown")))
    | .dict l => .ok (.dict (l.filter (fun p => p.1 != "Unknown")))
    | .pairList _ => .error .attributeError
  else
    .ok r

/-- The nested `profile` object of a user-profile response; `flag` is `none`
when the `flag` key is absent. -/
structure Profile where
  flag : Option String
deriving DecidableEq, Repr

/-- Body of a user-profile response once parsed as JSON; `profile` is `none`
when the `profile` key is absent. -/
structure UserData where
  profile : Option Profile
deriving DecidableEq, Repr

/-- A `requests` response to the user-profile lookup: its status code and its
body.  `body = none` models a body that is not valid JSON, on which
`response.json()` raises. -/
structure Response where
  status_code : Nat
  body : Option UserData
deriving DecidableEq, Repr

/-- Model of `extract_player_flag` (lcc.py:184-204), the variant with a quiet flag.
`requests.get` never raises `requests.HTTPError`, so the
`except requests.HTTPError` handler of lcc.py:201-204 is unreachable and the
function is the `try` body: parse the body as JSON and return the nested flag,
or `"Unknown"` on any `KeyError`.  The first component is the list of lines
the call prints (always empty here, the only `print` being in the dead
handler). -/
def extract_player_flag (resp : Response) (is_quiet : Bool) :
    List String × Except PyErr String :=
  match resp.body with
  | none => ([], .error .jsonDecodeError)
  | some u =>
    match u.profile with
    | none => ([], .ok "Unknown")
    | some pr =>
      match pr.flag with
      | none => ([], .ok "Unknown")
      | some f => ([], .ok f)

namespace MainV

/-- Model of `extract_player_flag` (main.py:110-131), the variant with an
explicit status check: a 200 response is parsed and yields the flag or
`"Unknown"`; any other status prints `Error: <status>` and calls
`raise_for_status`, which raises `requests.HTTPError` exactly for client and
server error statuses (400-599) and is a no-op for every other status, the
function then falling through and returning `None`. -/
def extract_player_flag (resp : Response) :
    List String × Except PyErr (Option String) :=
  if resp.status_code = 200 then
    match resp.body with
    | none => ([], .error .jsonDecodeError)
    | some u =>
      match u.profile with
      | none => ([], .ok (some "Unknown"))
      | some pr =>
        match pr.flag with
        | none => ([], .ok (some "Unknown"))
        | some f => ([], .ok (some f))
  else
    if 400 ≤ resp.status_code ∧ resp.status_code < 600 then
      (["Error: " ++ toString resp.status_code], .error (.httpError resp.status_code))
    else
      (["Error: " ++ toString resp.status_code], .ok none)

end MainV

/-- The components of the loop state that constitute the aggregation proper
(everything except the estimator and its reports). -/
def coreOf (st : StreamState) : List (String × Nat) × ℚ × Nat × List GameRecord :=
  (st.results, st.avg, st.linesSeen, st.games)

/-- The aggregation components of a `process_games` output (the estimator's
`failNote` and the progress reports excluded). -/
def outCore (o : ProcOutput) : Option (List GameRecord) × List (String × Nat) × ℚ :=
  (o.games, o.results, o.avg)

/-- Concrete game: the requested user `"alice"` plays white against `"bob"`
rated 1700; white wins. -/
def gAlice : Game :=
  { id := "g1", perf := "blitz", status := "mate",
    white := { user := { name := "alice" }, rating := 1500 },
    black := { user := { name := "bob" }, rating := 1700 },
    winner := some "white" }

/-- Concrete game: `"alice"` plays black against `"carol"` rated 1600; the
record has no winner key (a draw). -/
def gCarol : Game :=
  { id := "g2", perf := "rapid", status := "draw",
    white := { user := { name := "carol" }, rating := 1600 },
    black := { user := { name := "alice" }, rating := 1450 },
    winner := none }

namespace Lemmas

/-- Lemma: `process_game` succeeds on every well-typed game record, and the rating
it stores is the opponent's rating. -/
theorem process_game_isOk (flagOf : String → String) (username : String) (g : Game) :
    ∃ gd, process_game flagOf username g = .ok gd ∧
      gd.opponent_rating = opponentRating username g := by
  unfold process_game opponentRating
  by_cases h : g.white.user.name = username <;>
    simp [process_player_colors, h, Game.player]

/-- Lemma: with a nonzero target, `update` succeeds, records the analysed
count, and preserves the target. -/
theorem update_ok (e : SimpleTimeEstimator) (g : Nat) (q : Bool)
    (h0 : e.games_to_analyse ≠ 0) :
    ∃ e2 rep, e.update g q = .ok (e2, rep) ∧
      e2.current_games_analysed = g ∧
      e2.games_to_analyse = e.games_to_analyse := by
  unfold SimpleTimeEstimator.update
  dsimp only
  rw [if_neg h0]
  split
  · exact ⟨_, _, rfl, rfl, rfl⟩
  · exact ⟨_, _, rfl, rfl, rfl⟩

/-- Incrementing a counter raises the total count by one. -/
theorem countsSum_incrCount (l : List (String × Nat)) (k : String) :
    countsSum (incrCount l k) = countsSum l + 1 := by
  induction l with
  | nil => simp [incrCount, countsSum]
  | cons p t ih =>
    obtain ⟨a, v⟩ := p
    by_cases h : a = k <;> simp [incrCount, h, countsSum] at ih ⊢ <;> omega

/-- One loop iteration on a parsed game line, written out. -/
theorem streamStep_some (flagOf : String → String) (username : String)
    (q rg : Bool) (st0 : StreamState) (g : Game) (gd : GameRecord)
    (e2 : SimpleTimeEstimator) (rep : Option Nat)
    (hgd : process_game flagOf username g = .ok gd)
    (hup : st0.est.update (st0.linesSeen + 1) q = .ok (e2, rep)) :
    streamStep flagOf username q rg st0 (some g) = .ok
      { results := incrCount st0.results gd.opponent_flag,
        avg := st0.avg + ((gd.opponent_rating : ℚ) - st0.avg) / ((st0.linesSeen + 1 : ℕ) : ℚ),
        linesSeen := st0.linesSeen + 1,
        games := if rg then st0.games ++ [gd] else st0.games,
        est := e2,
        reports := st0.reports ++ rep.toList } := by
  simp [streamStep, hgd, hup]

/-- One loop iteration on a blank line, written out. -/
theorem streamStep_blank (flagOf : String → String) (username : String)
    (q rg : Bool) (st0 : StreamState)
    (e2 : SimpleTimeEstimator) (rep : Option Nat)
    (hup : st0.est.update (st0.linesSeen + 1) q = .ok (e2, rep)) :
    streamStep flagOf username q rg st0 none = .ok
      { results := st0.results, avg := st0.avg, linesSeen := st0.linesSeen + 1,
        games := st0.games, est := e2, reports := st0.reports ++ rep.toList } := by
  simp [streamStep, hup]

/-- Invariant of the stream loop over a list of parsed game lines, for an
estimator with a nonzero target: the loop never raises, the line counter
advances by the number of lines, the running mean satisfies the telescoped
Welford recurrence `linesSeen * avg = linesSeen₀ * avg₀ + Σ ratings`,
frequency counts grow by the number of games, the target is preserved, and
(when at least one line was seen) the estimator count equals the final line
counter. -/
theorem runStream_games_spec (flagOf : String → String) (username : String)
    (q rg : Bool) :
    ∀ (gs : List Game) (st0 : StreamState), st0.est.games_to_analyse ≠ 0 →
      ∃ st, runStream flagOf username q rg st0 (gs.map some) = .ok st ∧
        st.linesSeen = st0.linesSeen + gs.length ∧
        (st.linesSeen : ℚ) * st.avg
            = (st0.linesSeen : ℚ) * st0.avg + ratingsSum username gs ∧
        countsSum st.results = countsSum st0.results + gs.length ∧
        st.est.games_to_analyse = st0.est.games_to_analyse ∧
        (gs ≠ [] → st.est.current_games_analysed = st0.linesSeen + gs.length) := by
  intro gs
  induction gs with
  | nil =>
    intro st0 _
    exact ⟨st0, rfl, by simp, by simp [ratingsSum], by simp, rfl, by simp⟩
  | cons g tl ih =>
    intro st0 h0
    obtain ⟨gd, hgd, hrat⟩ := process_game_isOk flagOf username g
    obtain ⟨e2, rep, hup, hcur, htot⟩ := update_ok st0.est (st0.linesSeen + 1) q h0
    have hstep := streamStep_some flagOf username q rg st0 g gd e2 rep hgd hup
    obtain ⟨st, hst, h1, h2, h3, h5, h4⟩ := ih
      { results := incrCount st0.results gd.opponent_flag,
        avg := st0.avg + ((gd.opponent_rating : ℚ) - st0.avg) / ((st0.linesSeen + 1 : ℕ) : ℚ),
        linesSeen := st0.linesSeen + 1,
        games := if rg then st0.games ++ [gd] else st0.games,
        est := e2,
        reports := st0.reports ++ rep.toList }
      (by dsimp only; rw [htot]; exact h0)
    dsimp only at h1 h2 h3 h4 h5
    refine ⟨st, ?_, by simp only [List.length_cons]; omega, ?_, ?_, by rw [h5, htot], ?_⟩
    · rw [List.map_cons, runStream, hstep]
      exact hst
    · have hq : ((st0.linesSeen : ℚ) + 1) ≠ 0 := by positivity
      rw [h1] at h2
      rw [h1]
      rw [show ratingsSum username (g :: tl)
            = (opponentRating username g : ℚ) + ratingsSum username tl from by
          simp [ratingsSum]]
      rw [← hrat, h2]
      push_cast
      field_simp
      ring
    · rw [h3, countsSum_incrCount]
      simp only [List.length_cons]
      omega
    · intro _
      by_cases htl : tl = []
      · subst htl
        simp only [List.map_nil, runStream, Except.ok.injEq] at hst
        subst hst
        simpa using hcur
      · have h6 := h4 htl
        rw [h6]
        simp only [List.length_cons]
        omega

/-- A run over blank lines only, under a nonzero estimator target, succeeds
and leaves the counter and the mean untouched. -/
theorem runStream_blank (flagOf : String → String) (username : String)
    (q rg : Bool) :
    ∀ (lines : List (Option Game)) (st0 : StreamState), (∀ l ∈ lines, l = none) →
      st0.est.games_to_analyse ≠ 0 →
      ∃ st, runStream flagOf username q rg st0 lines = .ok st ∧
        st.results = st0.results ∧ st.avg = st0.avg := by
  intro lines
  induction lines with
  | nil => intro st0 _ _; exact ⟨st0, rfl, rfl, rfl⟩
  | cons l t ih =>
    intro st0 hall h0
    have hl : l = none := hall l (by simp)
    subst hl
    obtain ⟨e2, rep, hup, _, htot⟩ := update_ok st0.est (st0.linesSeen + 1) q h0
    have hstep := streamStep_blank flagOf username q rg st0 e2 rep hup
    obtain ⟨st, hst, h1, h2⟩ := ih
      { results := st0.results, avg := st0.avg, linesSeen := st0.linesSeen + 1,
        games := st0.games, est := e2, reports := st0.reports ++ rep.toList }
      (fun x hx => hall x (List.mem_cons_of_mem _ hx))
      (by dsimp only; rw [htot]; exact h0)
    exact ⟨st, by rw [runStream, hstep]; exact hst, by simpa using h1, by simpa using h2⟩

/-- Two runs with equal aggregation components and nonzero estimator targets
both succeed, with equal aggregation components and preserved targets: the
aggregation does not depend on the estimator beyond its target being
nonzero. -/
theorem runStream_core_congr (flagOf : String → String) (username : String)
    (q rg : Bool) :
    ∀ (lines : List (Option Game)) (st1 st2 : StreamState),
      coreOf st1 = coreOf st2 →
      st1.est.games_to_analyse ≠ 0 → st2.est.games_to_analyse ≠ 0 →
      ∃ r1 r2, runStream flagOf username q rg st1 lines = .ok r1 ∧
        runStream flagOf username q rg st2 lines = .ok r2 ∧
        coreOf r1 = coreOf r2 := by
  intro lines
  induction lines with
  | nil =>
    intro st1 st2 h _ _
    exact ⟨st1, st2, rfl, rfl, h⟩
  | cons l t ih =>
    intro st1 st2 h hz1 hz2
    have h1 : st1.results = st2.results := congrArg (fun p => p.1) h
    have h2 : st1.avg = st2.avg := congrArg (fun p => p.2.1) h
    have h3 : st1.linesSeen = st2.linesSeen := congrArg (fun p => p.2.2.1) h
    have h4 : st1.games = st2.games := congrArg (fun p => p.2.2.2) h
    simp only [coreOf] at h1 h2 h3 h4
    obtain ⟨ea, repa, hupa, _, htota⟩ := update_ok st1.est (st1.linesSeen + 1) q hz1
    obtain ⟨eb, repb, hupb, _, htotb⟩ := update_ok st2.est (st2.linesSeen + 1) q hz2
    cases l with
    | none =>
      have hsa := streamStep_blank flagOf username q rg st1 ea repa hupa
      have hsb := streamStep_blank flagOf username q rg st2 eb repb hupb
      obtain ⟨r1, r2, hr1, hr2, hc⟩ := ih
        { results := st1.results, avg := st1.avg, linesSeen := st1.linesSeen + 1,
          games := st1.games, est := ea, reports := st1.reports ++ repa.toList }
        { results := st2.results, avg := st2.avg, linesSeen := st2.linesSeen + 1,
          games := st2.games, est := eb, reports := st2.reports ++ repb.toList }
        (by simp [coreOf, h1, h2, h3, h4])
        (by dsimp only; rw [htota]; exact hz1)
        (by dsimp only; rw [htotb]; exact hz2)
      exact ⟨r1, r2, by rw [runStream, hsa]; exact hr1,
        by rw [runStream, hsb]; exact hr2, hc⟩
    | some g =>
      obtain ⟨gd, hgd, _⟩ := process_game_isOk flagOf username g
      have hsa := streamStep_some flagOf username q rg st1 g gd ea repa hgd hupa
      have hsb := streamStep_some flagOf username q rg st2 g gd eb repb hgd hupb
      obtain ⟨r1, r2, hr1, hr2, hc⟩ := ih
        { results := incrCount st1.results gd.opponent_flag,
          avg := st1.avg + ((gd.opponent_rating : ℚ) - st1.avg) / ((st1.linesSeen + 1 : ℕ) : ℚ),
          linesSeen := st1.linesSeen + 1,
          games := if rg then st1.games ++ [gd] else st1.games,
          est := ea, reports := st1.reports ++ repa.toList }
        { results := incrCount st2.results gd.opponent_flag,
          avg := st2.avg + ((gd.opponent_rating : ℚ) - st2.avg) / ((st2.linesSeen + 1 : ℕ) : ℚ),
          linesSeen := st2.linesSeen + 1,
          games := if rg then st2.games ++ [gd] else st2.games,
          est := eb, reports := st2.reports ++ repb.toList }
        (by simp [coreOf, h1, h2, h3, h4])
        (by dsimp only; rw [htota]; exact hz1)
        (by dsimp only; rw [htotb]; exact hz2)
      exact ⟨r1, r2, by rw [runStream, hsa]; exact hr1,
        by rw [runStream, hsb]; exact hr2, hc⟩

/-- Stable insertion produces a permutation of the element consed on. -/
theorem insertDesc_perm (a : String × Nat) (l : List (String × Nat)) :
    (insertDesc a l).Perm (a :: l) := by
  induction l with
  | nil => simp [insertDesc]
  | cons b t ih =>
    by_cases h : b.2 ≤ a.2
    · simp [insertDesc, h]
    · simp only [insertDesc, if_neg h]
      exact (List.Perm.cons b ih).trans (List.Perm.swap a b t)

/-- Stable insertion preserves descending sortedness by count. -/
theorem pairwise_insertDesc (a : String × Nat) (l : List (String × Nat))
    (h : List.Pairwise (fun x y : String × Nat => y.2 ≤ x.2) l) :
    List.Pairwise (fun x y : String × Nat => y.2 ≤ x.2) (insertDesc a l) := by
  induction l with
  | nil => simp [insertDesc]
  | cons b t ih =>
    cases h with
    | cons hb ht =>
      by_cases hba : b.2 ≤ a.2
      · simp only [insertDesc, if_pos hba]
        refine List.Pairwise.cons ?_ (List.Pairwise.cons hb ht)
        intro y hy
        rcases List.mem_cons.mp hy with hy | hy
        · exact hy ▸ hba
        · exact le_trans (hb y hy) hba
      · simp only [insertDesc, if_neg hba]
        refine List.Pairwise.cons ?_ (ih ht)
        intro y hy
        have hy2 : y ∈ a :: t := (insertDesc_perm a t).mem_iff.mp hy
        rcases List.mem_cons.mp hy2 with hy2 | hy2
        · exact hy2 ▸ le_of_lt (not_le.mp hba)
        · exact hb y hy2

/-- The stable descending sort is a permutation of its input. -/
theorem sortDesc_perm (l : List (String × Nat)) : (sortDesc l).Perm l := by
  induction l with
  | nil => simp [sortDesc]
  | cons b t ih =>
    exact (insertDesc_perm b (sortDesc t)).trans (List.Perm.cons b ih)

/-- The stable descending sort is sorted by non-increasing count. -/
theorem sortDesc_pairwise (l : List (String × Nat)) :
    List.Pairwise (fun x y : String × Nat => y.2 ≤ x.2) (sortDesc l) := by
  induction l with
  | nil => simp [sortDesc]
  | cons b t ih => exact pairwise_insertDesc b (sortDesc t) ih

/-- Filtering one count class through a stable insertion: an element of the
class goes to the front of the class (everything it jumps over has a strictly
larger count), any other element leaves the class untouched. -/
theorem filter_insertDesc (a : String × Nat) (l : List (String × Nat)) (c : Nat) :
    (insertDesc a l).filter (fun p => p.2 == c)
      = if a.2 = c then a :: l.filter (fun p => p.2 == c)
        else l.filter (fun p => p.2 == c) := by
  induction l with
  | nil => by_cases h : a.2 = c <;> simp [insertDesc, h]
  | cons b t ih =>
    by_cases hba : b.2 ≤ a.2
    · simp only [insertDesc, if_pos hba]
      by_cases h : a.2 = c <;> simp [List.filter_cons, h]
    · simp only [insertDesc, if_neg hba]
      by_cases h : a.2 = c
      · have hbc : ¬ (b.2 = c) := by omega
        simp [List.filter_cons, h, hbc, ih]
      · simp [List.filter_cons, h, ih]

/-- Stability of the descending sort: each count class appears in the sorted
list exactly as it appeared, in order, in the input. -/
theorem filter_sortDesc (l : List (String × Nat)) (c : Nat) :
    (sortDesc l).filter (fun p => p.2 == c) = l.filter (fun p => p.2 == c) := by
  induction l with
  | nil => rfl
  | cons b t ih =>
    show (insertDesc b (sortDesc t)).filter _ = _
    rw [filter_insertDesc]
    by_cases h : b.2 = c <;> simp [List.filter_cons, h, ih]

/-- A filtered prefix is a prefix of the filtered list. -/
theorem filter_take_ex {α : Type} (p : α → Bool) :
    ∀ (l : List α) (n : Nat), ∃ k, (l.take n).filter p = (l.filter p).take k := by
  intro l
  induction l with
  | nil => intro n; exact ⟨0, by simp⟩
  | cons a t ih =>
    intro n
    cases n with
    | zero => exact ⟨0, by simp⟩
    | succ m =>
      obtain ⟨k, hk⟩ := ih m
      by_cases h : p a
      · exact ⟨k + 1, by simp [List.filter_cons, h, hk]⟩
      · exact ⟨k, by simp [List.filter_cons, h, hk]⟩

end Lemmas

/-- C1: over any non-empty stream of game records, under an estimator with a
nonzero target (a zero target instead aborts the run with the
`ZeroDivisionError` of the progress update), the running mean kept by
`process_games` through the incremental update `avg += (rating - avg) / n`
equals the arithmetic mean of the opponent ratings processed so far, at every
step `k` (where the 1-based counter `n` coincides with the number of games
processed, blank lines being absent) and at the end of the run. -/
theorem C1_running_mean (flagOf : String → String) (username : String)
    (est : SimpleTimeEstimator) (q rg : Bool) (gs : List Game) (hne : gs ≠ [])
    (h0 : est.games_to_analyse ≠ 0) :
    (∀ k, 1 ≤ k → k ≤ gs.length →
      ∃ st, runStream flagOf username q rg (initStream est) ((gs.take k).map some)
          = .ok st ∧
        st.linesSeen = k ∧
        st.avg = ratingsSum username (gs.take k) / (k : ℚ)) ∧
    (∃ out, process_games flagOf username est (gs.map some) false rg q = .ok out ∧
      out.avg = ratingsSum username gs / (gs.length : ℚ)) := by
  constructor
  · intro k hk1 hk2
    obtain ⟨st, hst, h1, h2, _, _, _⟩ :=
      Lemmas.runStream_games_spec flagOf username q rg (gs.take k) (initStream est) h0
    have hlen : (gs.take k).length = k := by
      rw [List.length_take]
      omega
    rw [hlen] at h1
    simp only [initStream] at h1 h2
    have hk : st.linesSeen = k := by omega
    refine ⟨st, hst, hk, ?_⟩
    rw [hk] at h2
    have hkq : (k : ℚ) ≠ 0 := by
      exact_mod_cast Nat.one_le_iff_ne_zero.mp hk1
    field_simp
    rw [mul_comm] at h2
    simpa using h2
  · obtain ⟨st, hst, h1, h2, _, _, _⟩ :=
      Lemmas.runStream_games_spec flagOf username q rg gs (initStream est) h0
    simp only [initStream] at h1 h2
    refine ⟨{ games := if rg then some st.games else none, results := st.results,
              avg := st.avg, failNote := none, reports := st.reports }, ?_, ?_⟩
    · simp only [process_games]
      rw [hst]
      simp
    · have hlq : ((gs.length : ℕ) : ℚ) ≠ 0 := by
        have : gs.length ≠ 0 := fun h => hne (List.length_eq_zero.mp h)
        exact_mod_cast this
      have hk : st.linesSeen = gs.length := by omega
      rw [hk] at h2
      dsimp only
      field_simp
      rw [mul_comm] at h2
      simpa using h2

/-- C1 witness: a two-game stream for `"alice"` with opponent ratings 1700
and 1600 ends with running mean 1650. -/
theorem C1_witness :
    ∃ out, process_games (fun _ => "FR") "alice" (mkEstimator 2)
        ([gAlice, gCarol].map some) false false false = .ok out ∧
      out.avg = 1650 := by
  obtain ⟨out, ho, ha⟩ := (C1_running_mean (fun _ => "FR") "alice" (mkEstimator 2)
    false false [gAlice, gCarol] (by simp) (by norm_num [mkEstimator])).2
  refine ⟨out, ho, ?_⟩
  rw [ha]
  norm_num [ratingsSum, opponentRating, gAlice, gCarol,
    show ("carol" : String) ≠ "alice" from by decide]

/-- C3: contrary to the claim, a stream failure does not yield the partial
aggregate: nothing inside the `try` of `process_games` can raise
`requests.HTTPError` (only `raise_for_status` raises it, and none is called
there), so the `except requests.HTTPError` branch of lcc.py:151-155 is dead
code.  A server error interrupting the stream after the K delivered games
surfaces as a connection-level exception that the handler does not catch: it
propagates, the run aborts, and the K-game partial aggregate (counts, mean)
is discarded rather than returned.  (A request rejected with a non-success
status raises nothing at all; its error body is iterated as game lines
instead.) -/
theorem C3_no_partial_aggregate (flagOf : String → String) (username : String)
    (est : SimpleTimeEstimator) (q rg : Bool) (gs : List Game)
    (h0 : est.games_to_analyse ≠ 0) :
    process_games flagOf username est (gs.map some) true rg q
      = .error .connectionError ∧
    ∀ out : ProcOutput,
      process_games flagOf username est (gs.map some) true rg q ≠ .ok out := by
  obtain ⟨st, hst, _⟩ :=
    Lemmas.runStream_games_spec flagOf username q rg gs (initStream est) h0
  constructor
  · simp only [process_games]
    rw [hst]
    simp
  · intro out
    simp only [process_games]
    rw [hst]
    simp

/-- C3 witness: a stream of two parsed games followed by a mid-stream server
error makes `process_games` raise, returning no partial aggregate. -/
theorem C3_witness :
    process_games (fun _ => "FR") "alice" (mkEstimator 5)
        ([gAlice, gCarol].map some) true false false
      = .error .connectionError :=
  (C3_no_partial_aggregate (fun _ => "FR") "alice" (mkEstimator 5) false false
    [gAlice, gCarol] (by norm_num [mkEstimator])).1

/-- C10: a stream that yields no games makes `process_games` return, without
raising, an empty frequency count and the mean still at its initial zero
value: unconditionally when no lines at all were delivered, and for blank
lines under an estimator with a nonzero target (with a zero target the
progress update raises `ZeroDivisionError` on the first blank line). -/
theorem C10_zero_games (flagOf : String → String) (username : String)
    (est : SimpleTimeEstimator) (rg q : Bool) (lines : List (Option Game)) :
    (lines = [] →
      ∃ out, process_games flagOf username est lines false rg q = .ok out ∧
        out.results = [] ∧ out.avg = 0) ∧
    ((∀ l ∈ lines, l = none) → est.games_to_analyse ≠ 0 →
      ∃ out, process_games flagOf username est lines false rg q = .ok out ∧
        out.results = [] ∧ out.avg = 0) := by
  constructor
  · intro hl
    subst hl
    exact ⟨{ games := if rg then some [] else none, results := [], avg := 0,
             failNote := none, reports := [] }, rfl, rfl, rfl⟩
  · intro hall h0
    obtain ⟨st, hst, h1, h2⟩ :=
      Lemmas.runStream_blank flagOf username q rg lines (initStream est) hall h0
    refine ⟨{ games := if rg then some st.games else none, results := st.results,
              avg := st.avg, failNote := none, reports := st.reports }, ?_, ?_, ?_⟩
    · simp only [process_games]
      rw [hst]
      simp
    · simpa [initStream] using h1
    · simpa [initStream] using h2

/-- C10 witness: the empty stream yields the empty counter and mean zero,
and so does a one-blank-line stream under a nonzero target. -/
theorem C10_witness :
    (∃ out, process_games (fun _ => "FR") "alice" (mkEstimator 50) [] false
        false false = .ok out ∧ out.results = [] ∧ out.avg = 0) ∧
    (∃ out, process_games (fun _ => "FR") "alice" (mkEstimator 50) [none] false
        false false = .ok out ∧ out.results = [] ∧ out.avg = 0) :=
  ⟨(C10_zero_games (fun _ => "FR") "alice" (mkEstimator 50) false false []).1 rfl,
   (C10_zero_games (fun _ => "FR") "alice" (mkEstimator 50) false false [none]).2
     (by simp) (by norm_num [mkEstimator])⟩

/-- C9 counterexample: the claim that a crossing call advances the threshold
repeatedly until it exceeds the current fraction is false: starting from the
initial benchmark `0.05` with target 100, a single `update` call at 30
analysed games (fraction `0.30`) emits a report but advances the benchmark
only once, to `0.10`, which does not exceed `0.30`. -/
theorem C9_counterexample :
    ∃ e2, (mkEstimator 100).update 30 false = .ok (e2, some 30) ∧
      e2.current_update_benchmark = 1/10 ∧
      ¬ ((30 : ℚ)/100 < e2.current_update_benchmark) := by
  refine ⟨{ current_games_analysed := 30, games_to_analyse := 100,
            current_update_benchmark := 1/10, benchmark_increment := 1/20 },
    ?_, rfl, by norm_num⟩
  unfold SimpleTimeEstimator.update mkEstimator
  norm_num

/-- C9 (amended): a call of `update` whose fraction complete reaches or
exceeds the current threshold emits a report (unless quiet) and advances the
threshold by exactly one fixed increment — once, not repeatedly until it
exceeds the current fraction; a call below the threshold emits nothing and
leaves the threshold unchanged; and `update` never modifies the aggregation
state: for estimators whose target is nonzero (so that `update` itself does
not raise `ZeroDivisionError`), the aggregation outcome of `process_games`
is independent of the estimator state. -/
theorem C9_amended_update :
    (∀ (e : SimpleTimeEstimator) (g : Nat) (q : Bool), e.games_to_analyse ≠ 0 →
      (e.current_update_benchmark ≤ (g : ℚ) / (e.games_to_analyse : ℚ) →
        ∃ e2, e.update g q = .ok (e2, if q then none else some g) ∧
          e2.current_update_benchmark
            = e.current_update_benchmark + e.benchmark_increment) ∧
      ((g : ℚ) / (e.games_to_analyse : ℚ) < e.current_update_benchmark →
        ∃ e2, e.update g q = .ok (e2, none) ∧
          e2.current_update_benchmark = e.current_update_benchmark)) ∧
    (∀ (flagOf : String → String) (username : String)
        (e1 e2 : SimpleTimeEstimator) (lines : List (Option Game))
        (midFails rg q : Bool),
      e1.games_to_analyse ≠ 0 → e2.games_to_analyse ≠ 0 →
      (process_games flagOf username e1 lines midFails rg q).map outCore =
      (process_games flagOf username e2 lines midFails rg q).map outCore) := by
  constructor
  · intro e g q h0
    unfold SimpleTimeEstimator.update
    dsimp only
    rw [if_neg h0]
    constructor
    · intro hle
      rw [if_pos hle]
      exact ⟨_, rfl, rfl⟩
    · intro hlt
      rw [if_neg (not_le.mpr hlt)]
      exact ⟨_, rfl, rfl⟩
  · intro flagOf username e1 e2 lines midFails rg q hz1 hz2
    obtain ⟨r1, r2, hr1, hr2, hc⟩ := Lemmas.runStream_core_congr flagOf username
      q rg lines (initStream e1) (initStream e2) rfl hz1 hz2
    have hc1 : r1.results = r2.results := congrArg (fun p => p.1) hc
    have hc2 : r1.avg = r2.avg := congrArg (fun p => p.2.1) hc
    have hc4 : r1.games = r2.games := congrArg (fun p => p.2.2.2) hc
    simp only [coreOf] at hc1 hc2 hc4
    simp only [process_games]
    rw [hr1, hr2]
    cases midFails <;> simp [Except.map, outCore, hc1, hc2, hc4]

/-- C9 witness: the amended statement applied to the initial estimator with
target 100 at 30 analysed games, and to two different estimator states over
the empty stream. -/
theorem C9_amended_witness :
    (mkEstimator 100).games_to_analyse ≠ 0 ∧
    (∃ e2, (mkEstimator 100).update 30 false = .ok (e2, if false then none else some 30) ∧
      e2.current_update_benchmark
        = (mkEstimator 100).current_update_benchmark
            + (mkEstimator 100).benchmark_increment) ∧
    (process_games (fun _ => "X") "u" (mkEstimator 1) [] false false
        false).map outCore =
      (process_games (fun _ => "X") "u" (mkEstimator 99) [] false false
        false).map outCore :=
  ⟨by norm_num [mkEstimator],
   (C9_amended_update.1 (mkEstimator 100) 30 false
      (by norm_num [mkEstimator])).1 (by norm_num [mkEstimator]),
   C9_amended_update.2 (fun _ => "X") "u" (mkEstimator 1) (mkEstimator 99) []
     false false false (by norm_num [mkEstimator]) (by norm_num [mkEstimator])⟩

/-- C2: on the counter `{Unknown: 10, A: 5}` with `top_n = 1` and
`hide_unknown = True`, `process_results` does not return the empty mapping:
`most_common(1)` yields the list `[("Unknown", 10)]`, on which the
`hide_unknown` comprehension's `.items()` call raises `AttributeError`. -/
theorem C2_topn_hide_unknown_attribute_error :
    process_results [("Unknown", 10), ("A", 5)] (some 1) true =
      .error .attributeError := rfl

/-- C4 counterexample: a per-opponent lookup receiving a non-success response
(a 404 whose JSON body has no profile) is neither reported nor re-raised by
`extract_player_flag` (lcc.py variant): quiet or not, nothing is printed and
the literal `"Unknown"` is returned, so the run continues. -/
theorem C4_counterexample_silent_unknown :
    extract_player_flag { status_code := 404, body := some { profile := none } } true =
        ([], .ok "Unknown") ∧
    extract_player_flag { status_code := 404, body := some { profile := none } } false =
        ([], .ok "Unknown") := ⟨rfl, rfl⟩

/-- C4 (amended): only the main.py variant aborts on a failed opponent
lookup, and only for client/server error statuses: there a response with
status 400-599 prints `Error: <status>` and re-raises the `HTTPError`, while
any other non-200 status (a stray 3xx, or a status of 600 and above, for
which `raise_for_status` is a no-op) prints the error but falls through,
returning `None` without raising.  In the lcc.py variant the `HTTPError`
handler is unreachable (`requests.get` raises no `HTTPError`), so any
response with a JSON body, non-success included, prints nothing and yields
the nested flag or the literal `"Unknown"`, and the run continues. -/
theorem C4_amended_lookup_failure :
    (∀ resp : Response, 400 ≤ resp.status_code → resp.status_code < 600 →
      MainV.extract_player_flag resp =
        (["Error: " ++ toString resp.status_code],
         .error (.httpError resp.status_code))) ∧
    (∀ resp : Response, resp.status_code ≠ 200 →
      (resp.status_code < 400 ∨ 600 ≤ resp.status_code) →
      MainV.extract_player_flag resp =
        (["Error: " ++ toString resp.status_code], .ok none)) ∧
    (∀ (resp : Response) (u : UserData) (q : Bool), resp.body = some u →
      extract_player_flag resp q =
        ([], .ok ((u.profile.bind Profile.flag).getD "Unknown"))) := by
  refine ⟨?_, ?_, ?_⟩
  · intro resp h4 h6
    have h200 : ¬ resp.status_code = 200 := by omega
    unfold MainV.extract_player_flag
    rw [if_neg h200, if_pos ⟨h4, h6⟩]
  · intro resp h200 hout
    have hni : ¬ (400 ≤ resp.status_code ∧ resp.status_code < 600) := by
      rintro ⟨ha, hb⟩
      rcases hout with h | h <;> omega
    unfold MainV.extract_player_flag
    rw [if_neg h200, if_neg hni]
  · intro resp u q hb
    unfold extract_player_flag
    rw [hb]
    cases hp : u.profile with
    | none => simp [hp]
    | some pr => cases hf : pr.flag <;> simp [hp, hf]

/-- C4 witness: the amended statement applied to a concrete 404 response
(main.py aborts), a concrete 600 response (main.py prints and returns
`None`), and the same 404 response through the lcc.py variant (silent
`"Unknown"`). -/
theorem C4_amended_witness :
    MainV.extract_player_flag { status_code := 404, body := some { profile := none } } =
        (["Error: 404"], .error (.httpError 404)) ∧
    MainV.extract_player_flag { status_code := 600, body := some { profile := none } } =
        (["Error: 600"], .ok none) ∧
    extract_player_flag { status_code := 404, body := some { profile := none } } true =
        ([], .ok "Unknown") := by
  refine ⟨?_, ?_, ?_⟩
  · have h := C4_amended_lookup_failure.1
      { status_code := 404, body := some { profile := none } }
      (by norm_num) (by norm_num)
    simpa using h
  · have h := C4_amended_lookup_failure.2.1
      { status_code := 600, body := some { profile := none } }
      (by norm_num) (Or.inr (by norm_num))
    simpa using h
  · have h := C4_amended_lookup_failure.2.2
      { status_code := 404, body := some { profile := none } }
      { profile := none } true rfl
    simpa using h

/-- C5: with `top_n = n` set (and `hide_unknown` off) `process_results`
returns the list of the `n` highest-count entries: its length is
`min n |m|`, together with the dropped entries it is a permutation of the
input, every kept entry's count is at least every dropped entry's count, and
within each count class the kept entries are exactly the first-seen ones in
their original order (no secondary sort key); in particular `top_n = 2` on
`{A:5, B:3, C:3, D:1}` returns exactly `A` and `B`. -/
theorem C5_topn_first_seen (m : List (String × Nat)) (n : Int) (hn : 0 < n) :
    (∃ r rest, process_results m (some n) false = .ok (.pairList r) ∧
      r.length = min n.toNat m.length ∧
      (r ++ rest).Perm m ∧
      (∀ x ∈ r, ∀ y ∈ rest, y.2 ≤ x.2) ∧
      (∀ c : Nat, ∃ k, r.filter (fun p => p.2 == c)
          = (m.filter (fun p => p.2 == c)).take k)) ∧
    process_results [("A", 5), ("B", 3), ("C", 3), ("D", 1)] (some 2) false
      = .ok (.pairList [("A", 5), ("B", 3)]) := by
  constructor
  · refine ⟨most_common m n, (sortDesc m).drop n.toNat, ?_, ?_, ?_, ?_, ?_⟩
    · simp [process_results, truthy, hn.ne']
    · simp [most_common, List.length_take, (Lemmas.sortDesc_perm m).length_eq]
    · rw [most_common, List.take_append_drop]
      exact Lemmas.sortDesc_perm m
    · have hp := Lemmas.sortDesc_pairwise m
      rw [← List.take_append_drop n.toNat (sortDesc m)] at hp
      exact fun x hx y hy => (List.pairwise_append.mp hp).2.2 x hx y hy
    · intro c
      obtain ⟨k, hk⟩ := Lemmas.filter_take_ex (fun p => p.2 == c) (sortDesc m) n.toNat
      exact ⟨k, by rw [most_common, hk, Lemmas.filter_sortDesc]⟩
  · rfl

/-- C5 witness: `top_n = 2` on `{A:5, B:3, C:3, D:1}` keeps two entries that,
with the dropped ones, permute the input. -/
theorem C5_witness :
    (0 : Int) < 2 ∧
    ∃ r rest, process_results [("A", 5), ("B", 3), ("C", 3), ("D", 1)]
        (some 2) false = .ok (.pairList r) ∧
      r.length = 2 ∧
      (r ++ rest).Perm [("A", 5), ("B", 3), ("C", 3), ("D", 1)] := by
  refine ⟨by norm_num, ?_⟩
  obtain ⟨⟨r, rest, h1, h2, h3, _, _⟩, _⟩ :=
    C5_topn_first_seen [("A", 5), ("B", 3), ("C", 3), ("D", 1)] 2 (by norm_num)
  exact ⟨r, rest, h1, by simpa using h2, h3⟩

/-- C6: a game record lacking a winner field (a drawn game) is processed
without error into a record whose winner is the literal `"Unknown"`. -/
theorem C6_draw_winner_unknown (flagOf : String → String) (username : String)
    (g : Game) (h : g.winner = none) :
    ∃ gd, process_game flagOf username g = .ok gd ∧ gd.winner = "Unknown" := by
  unfold process_game
  by_cases hw : g.white.user.name = username <;>
    simp [process_player_colors, hw, Game.player, h]

/-- C6 witness: the drawn game `gCarol` yields winner `"Unknown"`. -/
theorem C6_witness :
    gCarol.winner = none ∧
    ∃ gd, process_game (fun _ => "FR") "alice" gCarol = .ok gd ∧
      gd.winner = "Unknown" :=
  ⟨rfl, C6_draw_winner_unknown (fun _ => "FR") "alice" gCarol rfl⟩

/-- C7: `process_player_colors` assigns own colour `"white"` and opponent
colour `"black"` exactly when the requested username equals the white
player's name, and the reverse otherwise. -/
theorem C7_color_assignment (g : Game) (username : String) :
    (g.white.user.name = username →
      process_player_colors g username = ("white", "black")) ∧
    (g.white.user.name ≠ username →
      process_player_colors g username = ("black", "white")) := by
  constructor <;> intro h <;> simp [process_player_colors, h]

/-- C7 witness: colour assignment evaluated on the concrete game `gAlice`
for the white player and for a third party. -/
theorem C7_witness :
    process_player_colors gAlice "alice" = ("white", "black") ∧
    process_player_colors gAlice "dora" = ("black", "white") :=
  ⟨(C7_color_assignment gAlice "alice").1 rfl,
   (C7_color_assignment gAlice "dora").2 (by decide)⟩

/-- C8: on a successful (status 200, JSON-bodied) user-profile lookup, both
variants of `extract_player_flag` return the nested flag code when the field
is present and the literal `"Unknown"` when it is absent. -/
theorem C8_flag_or_unknown (resp : Response) (u : UserData) (q : Bool)
    (hs : resp.status_code = 200) (hb : resp.body = some u) :
    (u.profile.bind Profile.flag = none →
      (extract_player_flag resp q).2 = .ok "Unknown" ∧
      (MainV.extract_player_flag resp).2 = .ok (some "Unknown")) ∧
    (∀ f, u.profile.bind Profile.flag = some f →
      (extract_player_flag resp q).2 = .ok f ∧
      (MainV.extract_player_flag resp).2 = .ok (some f)) := by
  unfold extract_player_flag MainV.extract_player_flag
  rw [hb]
  simp only [hs, if_true]
  cases hp : u.profile with
  | none => simp [hp]
  | some pr => cases hf : pr.flag <;> simp [hp, hf]

/-- C8 witness: a 200 response carrying flag `"US"`, and one lacking the
profile, evaluated through the theorem. -/
theorem C8_witness :
    (extract_player_flag
        { status_code := 200, body := some { profile := some { flag := some "US" } } }
        false).2 = .ok "US" ∧
    (MainV.extract_player_flag
        { status_code := 200, body := some { profile := none } }).2 =
      .ok (some "Unknown") :=
  ⟨((C8_flag_or_unknown
      { status_code := 200, body := some { profile := some { flag := some "US" } } }
      { profile := some { flag := some "US" } } false rfl rfl).2 "US" rfl).1,
   ((C8_flag_or_unknown
      { status_code := 200, body := some { profile := none } }
      { profile := none } false rfl rfl).1 rfl).2⟩

end LCC
